import Mathlib

/-!
Shallow embedding of the upstream-trace and catchment-resolution core of
HealthyWaters.py (functions MakeServiceLayer_hw, GetCatchments_hw,
GetSubCatchments_hw, GetNetworks_hw), together with proofs settling the
spec claims about that core.

Feature classes are embedded as lists of rows; polygon/line geometry is
embedded as a list of raster cells (the sub-catchment pipeline is
raster-based, and the spatial predicates the code uses reduce to
cell-set intersection, containment and difference).  External
primitives (the network-trace solve and the watershed delineation) are
parameters of the corresponding model functions.
-/

/-- A raster cell; geometry of every feature is the list of cells it covers. -/
abbrev Cell := Int × Int

/-- Spatial INTERSECT test between two geometries, as used by
SpatialJoin_analysis and SelectLayerByLocation with match option INTERSECT. -/
def intersects (a b : List Cell) : Bool :=
  a.any (fun x => decide (x ∈ b))

/-- One row of the traced-lines feature class (output of the service-area
solve, field ptid_join carrying the originating point id, field catID
carrying the NHDPlusID of the underlying flowline, and the accumulated
length FromCumul_Length from the facility). -/
structure LineRow where
  ptid : Int
  catID : Int
  FromCumul_Length : ℚ
  geom : List Cell
deriving DecidableEq, Repr

/-- One row of the full NHDPlusHR Catchment feature class. -/
structure CatRow where
  catID : Int
  geom : List Cell
deriving DecidableEq, Repr

/-- One row of the input points feature class (field ptid_join). -/
structure PtRow where
  ptid : Int
  geom : List Cell
deriving DecidableEq, Repr

/- ------------------------------------------------------------------
GetNetworks_hw, point-id handling (lines 345-365 of HealthyWaters.py).
------------------------------------------------------------------ -/

/-- An attribute record of a point row: the intrinsic row identifier (OID)
and the attribute table of the row. -/
structure PtRec where
  oid : Int
  attrs : List (String × Int)
deriving DecidableEq, Repr

/-- A point dataset: the name of its OID field, its list of attribute
fields, and its rows. -/
structure PointDataset where
  oidField : String
  fields : List String
  rows : List PtRec
deriving DecidableEq, Repr

/-- The derived unique-id field name, ptid + "_in_Points" (line 348). -/
def ptidJoinName (ds : PointDataset) : String :=
  ds.oidField ++ "_in_Points"

/-- The no-explicit-field branch of GetNetworks_hw (lines 346-354): if the
derived field is absent, AddField + CalculateField copy the OID value of
every row into the new field; if it is already present it is reused
unchanged. -/
def assignId (ds : PointDataset) : PointDataset :=
  if ptidJoinName ds ∈ ds.fields then ds
  else
    { ds with
      fields := ds.fields ++ [ptidJoinName ds],
      rows := ds.rows.map (fun r => { r with attrs := r.attrs ++ [(ptidJoinName ds, r.oid)] }) }

/-- Attribute lookup in a row's attribute table. -/
def lookupAttr (n : String) (attrs : List (String × Int)) : Option Int :=
  (attrs.find? (fun kv => kv.1 = n)).map (fun kv => kv.2)

/-- The point_id values a dataset carries in its derived id field. -/
def pointIds (ds : PointDataset) : List (Option Int) :=
  ds.rows.map (fun r => lookupAttr (ptidJoinName ds) r.attrs)

/-- The arcpy field types GetNetworks_hw accepts for a supplied id field
(line 358). -/
def numericTypes : List String := ["OID", "Integer", "Double"]

/-- Python's int() conversion on a rational value: truncation toward
zero, so int(-1.2) is -1.  Int.tdiv is Lean's truncating division (the
slash on Int is Euclidean division and would floor negative values). -/
def pyInt (q : ℚ) : Int := q.num.tdiv (q.den : Int)

/-- A supplied id field for GetNetworks_hw: its name, its arcpy field type
string, and its values. -/
structure IdFieldSpec where
  name : String
  ftype : String
  values : List ℚ
deriving DecidableEq, Repr

/-- The in_Points_id validation branch of GetNetworks_hw (lines 355-365):
reject a field whose type is not OID, Integer or Double; otherwise read
the values through int() and reject when they are not pairwise distinct
as integers; otherwise the field name itself becomes ptid_join. -/
def validate_in_Points_id (f : IdFieldSpec) : Except String String :=
  if f.ftype ∉ numericTypes then
    .error ("`" ++ f.name ++ "` is not a numeric field type, choose another field or leave empty.")
  else
    if ¬ (f.values.map pyInt).dedup.length = (f.values.map pyInt).length then
      .error ("`" ++ f.name ++ "` contains non-unique integers, choose another field or leave empty.")
    else
      .ok f.name

/-- GetNetworks_hw with a supplied id field, abstracted over the rest of
the pipeline: validation runs first (lines 355-365); only when it
succeeds is the network loaded, solved and written (lines 367 onward),
here an opaque continuation receiving the validated field name. -/
def getNetworks_hw_model {α : Type} (f : IdFieldSpec) (trace : String → α) : Except String α :=
  match validate_in_Points_id f with
  | .error e => .error e
  | .ok ptid_join => .ok (trace ptid_join)

/- ------------------------------------------------------------------
MakeServiceLayer_hw (lines 43-132 of HealthyWaters.py).
------------------------------------------------------------------ -/

/-- One row of the NHDLine feature class of the network geodatabase. -/
structure NHDLine where
  Permanent_Identifier : Int
  FType : Int
deriving DecidableEq, Repr

/-- The travel-restriction configuration of the service-area layer built
by MakeServiceLayer_hw: the named restriction attributes applied to the
network, the travel direction, the distance break, and the line-barrier
features loaded when dams is true. -/
structure ServiceLayerConfig where
  restrictions : List String
  travel_from : Bool
  default_break_value : ℚ
  line_barriers : List NHDLine
deriving DecidableEq, Repr

/-- MakeServiceLayer_hw (lines 64-120): the fixed restriction list
of "NoPipelines", "NoUndergroundConduits", "NoEphemeral", "NoCoastline"
with "FlowUpOnly" appended, travel from facilities (upstream trace), the
given distance break, and, when dams is true, the NHDLine rows selected
by the query FType = 343 (DamWeir only) loaded as line barriers. -/
def makeServiceLayer_hw (up_Dist : ℚ) (dams : Bool) (nwLines : List NHDLine) :
    ServiceLayerConfig :=
  let restrictions := ["NoPipelines", "NoUndergroundConduits", "NoEphemeral", "NoCoastline"]
  let restrictions := restrictions ++ ["FlowUpOnly"]
  { restrictions := restrictions,
    travel_from := true,
    default_break_value := up_Dist,
    line_barriers := if dams then nwLines.filter (fun l => l.FType = 343) else [] }

/-- Classes of network reaches distinguished by the travel restrictions
that the HydroNet network dataset defines. -/
inductive ReachType
  | pipeline
  | undergroundConduit
  | ephemeral
  | intermittent
  | coastline
  | canalDitch
  | connector
  | perennial
deriving DecidableEq, Repr

/-- Modelled from the spec: the meaning of the named travel restrictions
defined inside the external HydroNet network dataset (the network
geodatabase is set up manually and is not part of the repository; the
meanings are those documented in the header comments of
HealthyWaters.py, lines 18-29). -/
def restrictionBlocks (r : String) (t : ReachType) : Prop :=
  (r = "NoPipelines" ∧ t = ReachType.pipeline) ∨
  (r = "NoUndergroundConduits" ∧ t = ReachType.undergroundConduit) ∨
  (r = "NoEphemeral" ∧ t = ReachType.ephemeral) ∨
  (r = "NoEphemeralOrIntermittent" ∧
    (t = ReachType.ephemeral ∨ t = ReachType.intermittent)) ∨
  (r = "NoCoastline" ∧ t = ReachType.coastline) ∨
  (r = "NoCanalDitch" ∧ t = ReachType.canalDitch) ∨
  (r = "NoConnectors" ∧ t = ReachType.connector)

instance (r : String) (t : ReachType) : Decidable (restrictionBlocks r t) := by
  unfold restrictionBlocks; infer_instance

/-- A reach class is excluded from traversal when some restriction of the
service-layer configuration blocks it. -/
def excludesReach (cfg : ServiceLayerConfig) (t : ReachType) : Prop :=
  ∃ r ∈ cfg.restrictions, restrictionBlocks r t

instance (cfg : ServiceLayerConfig) (t : ReachType) : Decidable (excludesReach cfg t) := by
  unfold excludesReach; infer_instance

/- ------------------------------------------------------------------
GetCatchments_hw (lines 135-211 of HealthyWaters.py).
------------------------------------------------------------------ -/

/-- The per-catchment result of GetCatchments_hw before the sub-catchment
substitution (lines 147-169): restrict the Catchment layer to the
NHDPlusID values of the traced lines, spatial-join it one-to-many to the
lines with match option INTERSECT keeping only matches, keep the rows
where the catchment's own key equals the joined line's key (the query
catID = catID_1), and dissolve on the pair of fields ptid_join, catID.
A row is the attribute pair (ptid_join, catID) of one dissolved
catchment polygon. -/
def catch_full_pairs (in_Lines : List LineRow) (in_Catchment : List CatRow) :
    List (Int × Int) :=
  let oids := (in_Lines.map (fun l => l.catID)).dedup
  let cat_lyr := in_Catchment.filter (fun c => decide (c.catID ∈ oids))
  let cat_sj := cat_lyr.flatMap (fun c =>
    (in_Lines.filter (fun l => intersects c.geom l.geom)).map (fun l => (c, l)))
  let catch_full := cat_sj.filter (fun p => decide (p.1.catID = p.2.catID))
  (catch_full.map (fun p => (p.2.ptid, p.1.catID))).dedup

/-- The attribute query built at lines 180-184: a row is selected when it
matches the (ptid_join, catID) pair of some sub-catchment row. -/
def selectPairs (sub : List (Int × Int)) (r : Int × Int) : Bool :=
  sub.any (fun q => decide (r.1 = q.1 ∧ r.2 = q.2))

/-- The sub-catchment substitution step (lines 178-186): DeleteRows on the
selection made by selectPairs, then Append of the sub-catchment rows. -/
def substFull (full0 : List (Int × Int)) (sub : List (Int × Int)) : List (Int × Int) :=
  full0.filter (fun r => !selectPairs sub r) ++ sub

/-- The outputs of GetCatchments_hw: the rows of out_CatchArea + '_full'
(attribute pair per row) and the rows of out_CatchArea (the dissolve of
the full result on ptid_join alone, each row keeping only ptid_join;
appended fallback rows also keep only that field under the NO_TEST
schema option). -/
structure CatchOut where
  full : List (Int × Int)
  area : List Int
deriving DecidableEq, Repr

/-- The points selected at lines 195-197: those whose ptid_join value is
carried by no traced line (the query ptid_join NOT IN assoc, with assoc
the de-duplicated ptid_join values of the lines). -/
def unassocPoints (in_Lines : List LineRow) (in_Points : List PtRow) : List PtRow :=
  in_Points.filter (fun p => !decide (p.ptid ∈ (in_Lines.map (fun l => l.ptid)).dedup))

/-- The fallback rows of lines 200-206: the Catchment layer is restricted
by SelectLayerByLocation to the catchments intersecting some unassociated
point, spatial-joined one-to-many to those points with INTERSECT keeping
only matches, and the result dissolved on the pair ptid_join, catID. -/
def fallbackPairs (in_Lines : List LineRow) (in_Catchment : List CatRow)
    (in_Points : List PtRow) : List (Int × Int) :=
  ((in_Catchment.filter (fun c =>
      (unassocPoints in_Lines in_Points).any (fun q => intersects c.geom q.geom))).flatMap
    (fun c => ((unassocPoints in_Lines in_Points).filter
        (fun q => intersects c.geom q.geom)).map (fun q => (q.ptid, c.catID)))).dedup

/-- GetCatchments_hw (lines 135-211).  The sub-catchment rows are a
parameter: the code reuses a previously computed sub-catchment feature
class when one exists (line 175), and GetSubCatchments_hw is modelled
separately.  After the optional substitution, the full result is
dissolved on ptid_join into out_CatchArea; then, when some point has no
traced line, the fallback rows are appended to both outputs
(lines 194-209). -/
def getCatchments_hw (in_Lines : List LineRow) (in_Catchment : List CatRow)
    (in_Points : List PtRow) (subCat : List (Int × Int)) (get_SubCat : Bool) : CatchOut :=
  let full1 := if get_SubCat then substFull (catch_full_pairs in_Lines in_Catchment) subCat
               else catch_full_pairs in_Lines in_Catchment
  let area0 := (full1.map (fun r => r.1)).dedup
  if 0 < (unassocPoints in_Lines in_Points).length then
    ⟨full1 ++ fallbackPairs in_Lines in_Catchment in_Points,
      area0 ++ (fallbackPairs in_Lines in_Catchment in_Points).map (fun r => r.1)⟩
  else ⟨full1, area0⟩

/-- A point id has a trace-path catchment match when one of its traced
lines intersects a catchment whose key equals that line's key. -/
def hasMatch (in_Lines : List LineRow) (in_Catchment : List CatRow) (p : Int) : Prop :=
  ∃ l ∈ in_Lines, l.ptid = p ∧
    ∃ c ∈ in_Catchment, c.catID = l.catID ∧ intersects c.geom l.geom = true

instance (L : List LineRow) (C : List CatRow) (p : Int) : Decidable (hasMatch L C p) := by
  unfold hasMatch; infer_instance

/-- The number of distinct catchment keys among the catchments that
spatially intersect some input point carrying the given point id. -/
def fallbackCount (in_Catchment : List CatRow) (in_Points : List PtRow) (p : Int) : Nat :=
  ((in_Catchment.filter (fun c =>
      in_Points.any (fun q => decide (q.ptid = p) && intersects c.geom q.geom))).map
    (fun c => c.catID)).dedup.length

/- ------------------------------------------------------------------
GetSubCatchments_hw (lines 214-324 of HealthyWaters.py).
------------------------------------------------------------------ -/

/-- The starting-flowline selection (line 238): the traced edges whose
accumulated length from the origin is zero. -/
def flowSelect (in_Lines : List LineRow) : List LineRow :=
  in_Lines.filter (fun l => decide (l.FromCumul_Length = 0))

/-- Number of rows of a flow list carrying a given catchment key. -/
def countCat (c : Int) (flow : List LineRow) : Nat :=
  (flow.filter (fun l => decide (l.catID = c))).length

/-- The Statistics_analysis summary of line 246: one row per distinct
catchment key with its count. -/
def nidsOf (flow : List LineRow) : List (Int × Nat) :=
  ((flow.map (fun l => l.catID)).dedup).map (fun c => (c, countCat c flow))

/-- The duplicated catchment keys (line 248): keys carried by more than
one starting flowline. -/
def dupnidOf (flow : List LineRow) : List Int :=
  ((nidsOf flow).filter (fun a => decide (1 < a.2))).map (fun a => a.1)

/-- The largest per-key count (line 249). -/
def maxCountOf (flow : List LineRow) : Nat :=
  (nidsOf flow).foldr (fun a m => max a.2 m) 0

/-- The sequence indices iterated over (line 249): 1 .. max count. -/
def seqsOf (flow : List LineRow) : List Nat := List.range' 1 (maxCountOf flow)

/-- The UpdateCursor loop of lines 252-263: walk the starting flowlines
in order keeping a per-duplicated-key counter seqd; a row whose key is
duplicated receives the incremented counter as seqID, any other row
receives seqID 1. -/
def seqFold (dupnid : List Int) : List LineRow → (Int → Nat) → List (LineRow × Nat)
  | [], _ => []
  | l :: rest, seqd =>
    if l.catID ∈ dupnid then
      (l, seqd l.catID + 1) ::
        seqFold dupnid rest (fun c => if c = l.catID then seqd l.catID + 1 else seqd c)
    else
      (l, 1) :: seqFold dupnid rest seqd

/-- The seqID assignment of GetSubCatchments_hw over a flow selection. -/
def assignSeq (flow : List LineRow) : List (LineRow × Nat) :=
  seqFold (dupnidOf flow) flow (fun _ => 0)

/-- One row of the coarse catchment-area feature class handed to
GetSubCatchments_hw (the dissolved pairs, with the VPUID hydrologic-unit
key its docstring requires). -/
structure CatFullRow where
  ptid : Int
  catID : Int
  vpuid : String
  geom : List Cell
deriving DecidableEq, Repr

/-- One polygon fragment of the Identity_analysis output of line 313:
the watershed-membership value gridcode of the fragment, the attributes
inherited from the coarse catchment it fell in (absent for the part of a
fragment lying outside every coarse catchment), and its geometry. -/
structure IdentRow where
  gridcode : Int
  ptid : Option Int
  catID : Option Int
  geom : List Cell
deriving DecidableEq, Repr

/-- The union of the geometries of a list of coarse catchment rows. -/
def unionGeom (rows : List CatFullRow) : List Cell :=
  rows.foldr (fun r acc => r.geom ++ acc) []

/-- GetSubCatchments_hw (lines 214-324).  The watershed-delineation
primitive is a parameter: for a pour-point selection it yields the
membership raster, a partial map from cells to pour-point values.  The
function selects the starting flowlines, assigns seqID, restricts the
coarse catchments to the (ptid_join, catID) pairs of the starting
flowlines, and, per VPUID tile and per sequence index, masks to the
tile, rasterizes and delineates, converts the membership raster to
polygons, intersects them by Identity with the selected coarse
catchments, and keeps the fragments whose gridcode equals their
inherited ptid_join (the query of line 314); all passes are merged. -/
def getSubCatchments_hw (in_Lines : List LineRow) (in_CatchArea : List CatFullRow)
    (watershed : List (LineRow × Nat) → Cell → Option Int) : List IdentRow :=
  let flow := flowSelect in_Lines
  let asg := assignSeq flow
  let nid_oid := flow.map (fun l => (l.ptid, l.catID))
  let cat := in_CatchArea.filter (fun r =>
    nid_oid.any (fun q => decide (r.ptid = q.1 ∧ r.catID = q.2)))
  let vpu := (cat.map (fun r => r.vpuid)).dedup
  vpu.flatMap (fun v =>
    let msk := unionGeom (cat.filter (fun r => decide (r.vpuid = v)))
    (seqsOf flow).flatMap (fun s =>
      let flow_lyr := asg.filter (fun x => intersects x.1.geom msk && decide (x.2 = s))
      if flow_lyr.length = 0 then []
      else
        let w := watershed flow_lyr
        let vals := (msk.filterMap w).dedup
        let poly0d := vals.map (fun val =>
          (val, msk.filter (fun cell => decide (w cell = some val))))
        let poly1 := poly0d.flatMap (fun fr =>
          ((cat.map (fun r =>
              IdentRow.mk fr.1 (some r.ptid) (some r.catID)
                (fr.2.filter (fun x => decide (x ∈ r.geom))))) ++
            [IdentRow.mk fr.1 none none
              (fr.2.filter (fun x => !decide (x ∈ unionGeom cat)))]).filter
            (fun pc => !pc.geom.isEmpty))
        poly1.filter (fun pc => decide (pc.ptid = some pc.gridcode))))

/-- The (ptid_join, catID) attribute pairs of the sub-catchment rows, as
read back by the SearchCursor of lines 180-181. -/
def pairsOfSub (rows : List IdentRow) : List (Int × Int) :=
  rows.filterMap (fun r =>
    match r.ptid, r.catID with
    | some a, some b => some (a, b)
    | _, _ => none)

/- ------------------------------------------------------------------
Theorems about the point registry (claims C8, C9, C10).
------------------------------------------------------------------ -/

/-- C8: the no-explicit-field id assignment of GetNetworks_hw is
idempotent: a second run returns the dataset unchanged (so the point_id
values agree between the runs); the first run persists the derived field,
and a run that finds the field present reuses the dataset as is. -/
theorem c8_assignId_idempotent (ds : PointDataset) :
    assignId (assignId ds) = assignId ds ∧
    pointIds (assignId (assignId ds)) = pointIds (assignId ds) ∧
    ptidJoinName ds ∈ (assignId ds).fields ∧
    (ptidJoinName ds ∈ ds.fields → assignId ds = ds) := by
  have hoid : (assignId ds).oidField = ds.oidField := by
    unfold assignId; split <;> rfl
  have hname : ptidJoinName (assignId ds) = ptidJoinName ds := by
    simp [ptidJoinName, hoid]
  have hmem : ptidJoinName ds ∈ (assignId ds).fields := by
    unfold assignId
    split
    · assumption
    · simp [ptidJoinName]
  have hmemX : ptidJoinName (assignId ds) ∈ (assignId ds).fields := by
    rw [hname]; exact hmem
  have hfix : assignId (assignId ds) = assignId ds := by
    generalize hX : assignId ds = X at hmemX
    simp [assignId, hmemX]
  refine ⟨hfix, by rw [hfix], hmem, fun h => ?_⟩
  simp [assignId, h]

/-- C9: with a supplied id field, GetNetworks_hw fails (raising the
ValueError realising the spec's ValidationError) whenever the field type
is non-numeric or the int()-converted values contain duplicates, and in
that case the result does not depend on the tracing continuation (no
tracing or output writing happened); when validation passes, the field
name is used unchanged as the point identifier. -/
theorem c9_id_validation (f : IdFieldSpec) (α : Type) (t t' : String → α) :
    ((f.ftype ∉ numericTypes ∨
        ¬ ((f.values.map pyInt).dedup.length = (f.values.map pyInt).length)) →
      (∃ e, getNetworks_hw_model f t = .error e) ∧
        getNetworks_hw_model f t = getNetworks_hw_model f t') ∧
    ((f.ftype ∈ numericTypes ∧
        (f.values.map pyInt).dedup.length = (f.values.map pyInt).length) →
      getNetworks_hw_model f t = .ok (t f.name)) := by
  by_cases h1 : f.ftype ∉ numericTypes
  · refine ⟨fun _ => ?_, fun hc => absurd hc.1 h1⟩
    unfold getNetworks_hw_model validate_in_Points_id
    rw [if_pos h1]
    exact ⟨⟨_, rfl⟩, rfl⟩
  · by_cases h2 : (f.values.map pyInt).dedup.length = (f.values.map pyInt).length
    · refine ⟨fun hc => ?_, fun _ => ?_⟩
      · rcases hc with h | h
        · exact absurd h h1
        · exact absurd h2 h
      · unfold getNetworks_hw_model validate_in_Points_id
        rw [if_neg h1, if_neg (not_not_intro h2)]
    · refine ⟨fun _ => ?_, fun hc => absurd hc.2 h2⟩
      unfold getNetworks_hw_model validate_in_Points_id
      rw [if_neg h1, if_pos h2]
      exact ⟨⟨_, rfl⟩, rfl⟩

/-- Witness for C9: a text-typed field fails before tracing, independent
of the continuation; a Double field whose values -0.2 and 0.5 both
truncate to the integer 0 fails the duplicate check the same way; and a
valid Integer field is used unchanged. -/
theorem c9_id_validation_witness :
    ((∃ e, getNetworks_hw_model ⟨"fld", "Text", [mkRat 1 1, mkRat 2 1]⟩ (fun s => s ++ "!") = .error e) ∧
      getNetworks_hw_model ⟨"fld", "Text", [mkRat 1 1, mkRat 2 1]⟩ (fun s => s ++ "!") =
        getNetworks_hw_model ⟨"fld", "Text", [mkRat 1 1, mkRat 2 1]⟩ (fun s => s ++ "?")) ∧
    ((∃ e, getNetworks_hw_model ⟨"fld", "Double", [mkRat (-1) 5, mkRat 1 2]⟩ (fun s => s ++ "!") = .error e) ∧
      getNetworks_hw_model ⟨"fld", "Double", [mkRat (-1) 5, mkRat 1 2]⟩ (fun s => s ++ "!") =
        getNetworks_hw_model ⟨"fld", "Double", [mkRat (-1) 5, mkRat 1 2]⟩ (fun s => s ++ "?")) ∧
    getNetworks_hw_model ⟨"fld", "Integer", [mkRat 1 1, mkRat 2 1]⟩ (fun s => s ++ "!") = .ok "fld!" := by
  refine ⟨(c9_id_validation ⟨"fld", "Text", [mkRat 1 1, mkRat 2 1]⟩ String (fun s => s ++ "!")
      (fun s => s ++ "?")).1 (Or.inl (by decide)), ?_, ?_⟩
  · exact (c9_id_validation ⟨"fld", "Double", [mkRat (-1) 5, mkRat 1 2]⟩ String (fun s => s ++ "!")
      (fun s => s ++ "?")).1 (Or.inr (by decide))
  · exact (c9_id_validation ⟨"fld", "Integer", [mkRat 1 1, mkRat 2 1]⟩ String (fun s => s ++ "!")
      (fun s => s ++ "?")).2 (by decide)

/-- C10: OID, Integer and Double are the field types accepted as numeric;
the duplicate check runs on int()-converted values, so a Double field
with pairwise-distinct values 1.2 and 1.7 is rejected as containing
non-unique integers, while a text field is rejected as non-numeric no
matter its values.  The conversion truncates toward zero as Python's
int() does (int(-1.2) is -1, not the floor -2), so the Double values
-0.2 and 0.5 both convert to 0 and are also rejected as non-unique. -/
theorem c10_numeric_and_int_conversion (name : String) (vals : List ℚ) :
    validate_in_Points_id ⟨name, "Double", [mkRat 6 5, mkRat 17 10]⟩ =
      .error ("`" ++ name ++ "` contains non-unique integers, choose another field or leave empty.") ∧
    mkRat 6 5 ≠ mkRat 17 10 ∧
    pyInt (mkRat 6 5) = pyInt (mkRat 17 10) ∧
    pyInt (mkRat (-6) 5) = -1 ∧
    validate_in_Points_id ⟨name, "Double", [mkRat (-1) 5, mkRat 1 2]⟩ =
      .error ("`" ++ name ++ "` contains non-unique integers, choose another field or leave empty.") ∧
    mkRat (-1) 5 ≠ mkRat 1 2 ∧
    pyInt (mkRat (-1) 5) = 0 ∧ pyInt (mkRat 1 2) = 0 ∧
    validate_in_Points_id ⟨name, "Double", [mkRat (-6) 5, mkRat (-2) 1]⟩ = .ok name ∧
    validate_in_Points_id ⟨name, "Text", vals⟩ =
      .error ("`" ++ name ++ "` is not a numeric field type, choose another field or leave empty.") ∧
    validate_in_Points_id ⟨name, "OID", [mkRat 1 1, mkRat 2 1, mkRat 3 1]⟩ = .ok name ∧
    validate_in_Points_id ⟨name, "Integer", [mkRat 1 1, mkRat 2 1, mkRat 3 1]⟩ = .ok name ∧
    validate_in_Points_id ⟨name, "Double", [mkRat 1 1, mkRat 2 1, mkRat 3 1]⟩ = .ok name := by
  have hmk : ∀ (n ft : String) (vals : List ℚ),
      validate_in_Points_id ⟨n, ft, vals⟩ =
        if ft ∉ numericTypes then
          .error ("`" ++ n ++ "` is not a numeric field type, choose another field or leave empty.")
        else
          if ¬ (vals.map pyInt).dedup.length = (vals.map pyInt).length then
            .error ("`" ++ n ++ "` contains non-unique integers, choose another field or leave empty.")
          else
            .ok n := fun _ _ _ => rfl
  refine ⟨?_, by decide, by decide, by decide, ?_, by decide, by decide, by decide,
    ?_, ?_, ?_, ?_, ?_⟩
  · rw [hmk, if_neg (by decide), if_pos (by decide)]
  · rw [hmk, if_neg (by decide), if_pos (by decide)]
  · rw [hmk, if_neg (by decide), if_neg (by decide)]
  · rw [hmk, if_pos (by decide)]
  · rw [hmk, if_neg (by decide), if_neg (by decide)]
  · rw [hmk, if_neg (by decide), if_neg (by decide)]
  · rw [hmk, if_neg (by decide), if_neg (by decide)]

/- ------------------------------------------------------------------
Theorems about MakeServiceLayer_hw (claim C3).
------------------------------------------------------------------ -/

/-- C3, counterexample: the claim states that the traversal rule set
excludes ephemeral and intermittent reaches; but the service layer built
by MakeServiceLayer_hw does not exclude intermittent reaches (the
NoEphemeralOrIntermittent restriction was deliberately replaced by
NoEphemeral, per the header comment of HealthyWaters.py). -/
theorem c3_counterexample :
    ¬ excludesReach (makeServiceLayer_hw 1000 true []) ReachType.intermittent := by
  decide

/-- C3, amended: the traversal context built by MakeServiceLayer_hw for a
given distance excludes pipelines, underground conduits, ephemeral (but
not intermittent) reaches and coastline, allows travel in the upstream
direction only (travel from facilities with the FlowUpOnly restriction),
and, when dams is enabled, loads exactly the NHDLine features with
FType = 343 as line barriers. -/
theorem c3_service_layer_rules (up_Dist : ℚ) (dams : Bool) (nwLines : List NHDLine) :
    excludesReach (makeServiceLayer_hw up_Dist dams nwLines) ReachType.pipeline ∧
    excludesReach (makeServiceLayer_hw up_Dist dams nwLines) ReachType.undergroundConduit ∧
    excludesReach (makeServiceLayer_hw up_Dist dams nwLines) ReachType.ephemeral ∧
    excludesReach (makeServiceLayer_hw up_Dist dams nwLines) ReachType.coastline ∧
    ¬ excludesReach (makeServiceLayer_hw up_Dist dams nwLines) ReachType.intermittent ∧
    "FlowUpOnly" ∈ (makeServiceLayer_hw up_Dist dams nwLines).restrictions ∧
    (makeServiceLayer_hw up_Dist dams nwLines).travel_from = true ∧
    (makeServiceLayer_hw up_Dist dams nwLines).line_barriers =
      (if dams then nwLines.filter (fun l => l.FType = 343) else []) := by
  refine ⟨?_, ?_, ?_, ?_, ?_, ?_, rfl, rfl⟩ <;>
    simp [excludesReach, makeServiceLayer_hw, restrictionBlocks]

/- ------------------------------------------------------------------
General lemmas about the catchment-resolver embedding.
------------------------------------------------------------------ -/

theorem intersects_iff (a b : List Cell) : intersects a b = true ↔ ∃ x ∈ a, x ∈ b := by
  simp [intersects, List.any_eq_true]

theorem selectPairs_iff (sub : List (Int × Int)) (r : Int × Int) :
    selectPairs sub r = true ↔ r ∈ sub := by
  simp only [selectPairs, List.any_eq_true, decide_eq_true_eq]
  constructor
  · rintro ⟨q, hq, h1, h2⟩
    rwa [show r = q from Prod.ext_iff.2 ⟨h1, h2⟩]
  · intro h
    exact ⟨r, h, rfl, rfl⟩

theorem mem_catch_full_pairs (L : List LineRow) (C : List CatRow) (pr : Int × Int) :
    pr ∈ catch_full_pairs L C ↔
      ∃ c ∈ C, ∃ l ∈ L, intersects c.geom l.geom = true ∧ c.catID = l.catID ∧
        pr = (l.ptid, c.catID) := by
  unfold catch_full_pairs
  simp only [List.mem_dedup, List.mem_map, List.mem_filter, List.mem_flatMap,
    decide_eq_true_eq]
  constructor
  · rintro ⟨q, ⟨⟨c, ⟨hc, -⟩, l, hl, rfl⟩, hkey⟩, rfl⟩
    exact ⟨c, hc, l, hl.1, hl.2, hkey, rfl⟩
  · rintro ⟨c, hc, l, hl, hint, hkey, rfl⟩
    exact ⟨(c, l), ⟨⟨c, ⟨hc, ⟨l, hl, hkey.symm⟩⟩, l, ⟨hl, hint⟩, rfl⟩, hkey⟩, rfl⟩

theorem fst_catch_full_iff_hasMatch (L : List LineRow) (C : List CatRow) (p : Int) :
    p ∈ (catch_full_pairs L C).map (fun r => r.1) ↔ hasMatch L C p := by
  rw [List.mem_map]
  constructor
  · rintro ⟨r, hr, hfst⟩
    rcases (mem_catch_full_pairs L C r).1 hr with ⟨c, hc, l, hl, hint, hkey, rfl⟩
    exact ⟨l, hl, hfst, c, hc, hkey, hint⟩
  · rintro ⟨l, hl, hptid, c, hc, hkey, hint⟩
    exact ⟨(l.ptid, c.catID),
      (mem_catch_full_pairs L C _).2 ⟨c, hc, l, hl, hint, hkey, rfl⟩, hptid⟩

theorem count_map_fst (xs : List (Int × Int)) (p : Int) :
    (xs.map Prod.fst).count p = (xs.filter (fun r => decide (r.1 = p))).length := by
  induction xs with
  | nil => simp
  | cons x xs ih =>
    by_cases h : x.1 = p
    · simp [List.count_cons, List.filter_cons, h, ih]
    · simp [List.count_cons, List.filter_cons, h, ih, Ne.symm h]

theorem mem_unassocPoints (L : List LineRow) (P : List PtRow) (q : PtRow) :
    q ∈ unassocPoints L P ↔ q ∈ P ∧ q.ptid ∉ L.map (fun l => l.ptid) := by
  simp [unassocPoints]

theorem mem_fallbackPairs (L : List LineRow) (C : List CatRow) (P : List PtRow)
    (r : Int × Int) :
    r ∈ fallbackPairs L C P ↔
      ∃ c ∈ C, ∃ q ∈ unassocPoints L P, intersects c.geom q.geom = true ∧
        r = (q.ptid, c.catID) := by
  unfold fallbackPairs
  simp only [List.mem_dedup, List.mem_flatMap, List.mem_map, List.mem_filter,
    List.any_eq_true]
  constructor
  · rintro ⟨c, ⟨hc, -⟩, q, hq, rfl⟩
    exact ⟨c, hc, q, hq.1, hq.2, rfl⟩
  · rintro ⟨c, hc, q, hq, hint, rfl⟩
    exact ⟨c, ⟨hc, ⟨q, hq, hint⟩⟩, q, ⟨hq, hint⟩, rfl⟩

theorem fallbackPairs_eq_nil (L : List LineRow) (C : List CatRow) (P : List PtRow)
    (h : unassocPoints L P = []) : fallbackPairs L C P = [] := by
  unfold fallbackPairs
  rw [h]
  simp

theorem fst_substFull_iff (full0 sub : List (Int × Int)) (p : Int)
    (hsub : ∀ s ∈ sub, s ∈ full0) :
    p ∈ (substFull full0 sub).map (fun r => r.1) ↔ p ∈ full0.map (fun r => r.1) := by
  simp only [substFull, List.map_append, List.mem_append, List.mem_map, List.mem_filter]
  constructor
  · rintro (⟨r, ⟨hr, -⟩, rfl⟩ | ⟨r, hr, rfl⟩)
    · exact ⟨r, hr, rfl⟩
    · exact ⟨r, hsub r hr, rfl⟩
  · rintro ⟨r, hr, rfl⟩
    by_cases hsel : selectPairs sub r = true
    · exact Or.inr ⟨r, (selectPairs_iff sub r).1 hsel, rfl⟩
    · exact Or.inl ⟨r, ⟨hr, by simp [hsel]⟩, rfl⟩

theorem substFull_filter_fst (full0 sub : List (Int × Int)) (p : Int)
    (hp : p ∉ sub.map Prod.fst) :
    (substFull full0 sub).filter (fun x => decide (x.1 = p)) =
      full0.filter (fun x => decide (x.1 = p)) := by
  rw [substFull, List.filter_append]
  have hsubnil : sub.filter (fun x => decide (x.1 = p)) = [] := by
    rw [List.filter_eq_nil_iff]
    intro a ha
    simp only [decide_eq_true_eq]
    intro hfst
    exact hp (List.mem_map.2 ⟨a, ha, hfst⟩)
  rw [hsubnil, List.append_nil, List.filter_filter]
  refine List.filter_congr ?_
  intro a ha
  by_cases hfst : a.1 = p
  · have hnotsel : selectPairs sub a = false := by
      rw [Bool.eq_false_iff]
      intro hsel
      exact hp (List.mem_map.2 ⟨a, (selectPairs_iff sub a).1 hsel, hfst⟩)
    simp [hfst, hnotsel]
  · simp [hfst]

/- ------------------------------------------------------------------
Theorems about GetCatchments_hw (claims C2, C7).
------------------------------------------------------------------ -/

/-- C2: in the non-fallback path, a Catchment polygon contributes a row
(ptid_join, catID) of the per-catchment result only when its key is
exactly equal to the key of one of that point's traced lines; spatial
intersection alone never suffices. -/
theorem c2_identity_exactness (L : List LineRow) (C : List CatRow) (pr : Int × Int)
    (h : pr ∈ catch_full_pairs L C) :
    ∃ l ∈ L, l.ptid = pr.1 ∧ l.catID = pr.2 := by
  rcases (mem_catch_full_pairs L C pr).1 h with ⟨c, hc, l, hl, hint, hkey, rfl⟩
  exact ⟨l, hl, rfl, hkey.symm⟩

/-- Witness for C2 at a concrete instance with one line and one
key-matching catchment. -/
theorem c2_identity_exactness_witness :
    ((1, 5) ∈ catch_full_pairs [⟨1, 5, 0, [(0, 0)]⟩] [⟨5, [(0, 0)]⟩]) ∧
      ∃ l ∈ [(⟨1, 5, 0, [(0, 0)]⟩ : LineRow)], l.ptid = (1, 5).1 ∧ l.catID = (1, 5).2 :=
  ⟨by decide, c2_identity_exactness [⟨1, 5, 0, [(0, 0)]⟩] [⟨5, [(0, 0)]⟩] (1, 5) (by decide)⟩

/-- C7: the sub-catchment substitution step deletes from the
per-catchment result exactly the rows whose (ptid_join, catID) pair
matches some sub-catchment row and appends the sub-catchment rows in
their place; rows of any other pair, in particular every point id with
no sub-catchment, keep their rows unchanged. -/
theorem c7_substitution_frame (L : List LineRow) (C : List CatRow)
    (sub : List (Int × Int)) (r : Int × Int) (p : Int) :
    ((substFull (catch_full_pairs L C) sub).count r =
      (if r ∈ sub then 0 else (catch_full_pairs L C).count r) + sub.count r) ∧
    (p ∉ sub.map Prod.fst →
      (substFull (catch_full_pairs L C) sub).filter (fun x => decide (x.1 = p)) =
        (catch_full_pairs L C).filter (fun x => decide (x.1 = p))) := by
  constructor
  · rw [substFull, List.count_append]
    congr 1
    by_cases hr : r ∈ sub
    · rw [if_pos hr, List.count_eq_zero]
      intro hmem
      have := (List.mem_filter.1 hmem).2
      rw [(selectPairs_iff sub r).2 hr] at this
      exact absurd this (by simp)
    · rw [if_neg hr]
      refine List.count_filter ?_
      have : ¬ selectPairs sub r = true := fun h => hr ((selectPairs_iff sub r).1 h)
      simp [this]
  · intro hp
    exact substFull_filter_fst _ sub p hp

/-- Witness for C7 at a concrete instance: the pair of the one
sub-catchment row is removed and replaced, and point 2's row is kept. -/
theorem c7_substitution_frame_witness :
    (2 : Int) ∉ ([((1 : Int), (5 : Int))]).map Prod.fst ∧
    (substFull (catch_full_pairs
        [⟨1, 5, 0, [(0, 0)]⟩, ⟨2, 6, 0, [(1, 1)]⟩]
        [⟨5, [(0, 0)]⟩, ⟨6, [(1, 1)]⟩]) [(1, 5)]).filter (fun x => decide (x.1 = 2)) =
      (catch_full_pairs [⟨1, 5, 0, [(0, 0)]⟩, ⟨2, 6, 0, [(1, 1)]⟩]
        [⟨5, [(0, 0)]⟩, ⟨6, [(1, 1)]⟩]).filter (fun x => decide (x.1 = 2)) :=
  ⟨by decide, (c7_substitution_frame
      [⟨1, 5, 0, [(0, 0)]⟩, ⟨2, 6, 0, [(1, 1)]⟩]
      [⟨5, [(0, 0)]⟩, ⟨6, [(1, 1)]⟩] [(1, 5)] (1, 5) 2).2 (by decide)⟩

/- ------------------------------------------------------------------
Claim C1: coverage of points by CatchmentArea rows.
------------------------------------------------------------------ -/

/-- C1, counterexample: point 1 has a traced line (key 5), but no
catchment carries that key, so the trace path yields no row; because the
point has traced lines it is not selected by the fallback query
(ptid_join NOT IN assoc) either, and the output contains no row for it,
although the claim demands exactly one. -/
theorem c1_counterexample :
    ((1 : Int) ∈ ([⟨1, [(0, 0)]⟩] : List PtRow).map (fun q => q.ptid)) ∧
    (getCatchments_hw [⟨1, 5, 0, [(0, 0)]⟩] [⟨7, [(0, 0)]⟩] [⟨1, [(0, 0)]⟩]
      [] false).area.count 1 = 0 := by
  decide

/-- C1, amended: the number of out_CatchArea rows carrying a given point
id is: exactly one for a point with a traced line whose key matches an
intersecting catchment; zero for a point whose traced lines match no
catchment (the fallback does not reach it); and, for a point with no
traced line, one row per distinct key of the catchments intersecting it
(possibly zero, possibly several). -/
theorem c1_amended_coverage (L : List LineRow) (C : List CatRow) (P : List PtRow)
    (subCat : List (Int × Int)) (get_SubCat : Bool) (p : Int)
    (hsub : ∀ s ∈ subCat, s ∈ catch_full_pairs L C) :
    (getCatchments_hw L C P subCat get_SubCat).area.count p =
      if p ∈ L.map (fun l => l.ptid) then (if hasMatch L C p then 1 else 0)
      else fallbackCount C P p := by
  have harea : (getCatchments_hw L C P subCat get_SubCat).area =
      ((if get_SubCat then substFull (catch_full_pairs L C) subCat
        else catch_full_pairs L C).map (fun r => r.1)).dedup
        ++ (fallbackPairs L C P).map (fun r => r.1) := by
    by_cases h : 0 < (unassocPoints L P).length
    · simp only [getCatchments_hw, if_pos h]
    · have hnil : unassocPoints L P = [] := by
        rcases hE : unassocPoints L P with _ | ⟨a, as⟩
        · rfl
        · exact absurd (hE ▸ (by simp : 0 < (a :: as).length)) h
      simp only [getCatchments_hw, if_neg h, fallbackPairs_eq_nil L C P hnil,
        List.map_nil, List.append_nil]
  have hfst : (p ∈ (if get_SubCat then substFull (catch_full_pairs L C) subCat
      else catch_full_pairs L C).map (fun r => r.1)) ↔ hasMatch L C p := by
    by_cases hgs : get_SubCat
    · rw [if_pos hgs, fst_substFull_iff _ _ _ hsub, fst_catch_full_iff_hasMatch]
    · rw [if_neg hgs, fst_catch_full_iff_hasMatch]
  rw [harea, List.count_append, List.count_dedup]
  by_cases hp : p ∈ L.map (fun l => l.ptid)
  · rw [if_pos hp]
    have hfb : ((fallbackPairs L C P).map (fun r => r.1)).count p = 0 := by
      rw [List.count_eq_zero]
      intro hmem
      rcases List.mem_map.1 hmem with ⟨r, hr, hrp⟩
      rcases (mem_fallbackPairs L C P r).1 hr with ⟨c, hc, q, hq, hint, rfl⟩
      have hq2 : q.ptid = p := hrp
      exact ((mem_unassocPoints L P q).1 hq).2 (by rw [hq2]; exact hp)
    rw [hfb, Nat.add_zero]
    by_cases hm : hasMatch L C p
    · rw [if_pos (hfst.2 hm), if_pos hm]
    · rw [if_neg (fun h => hm (hfst.1 h)), if_neg hm]
  · rw [if_neg hp]
    have hnm : ¬ p ∈ (if get_SubCat then substFull (catch_full_pairs L C) subCat
        else catch_full_pairs L C).map (fun r => r.1) := by
      intro h
      rcases hfst.1 h with ⟨l, hl, hptid, -⟩
      exact hp (List.mem_map.2 ⟨l, hl, hptid⟩)
    rw [if_neg hnm, Nat.zero_add]
    have hmapeq : (fallbackPairs L C P).map (fun r => r.1) =
        (fallbackPairs L C P).map Prod.fst := rfl
    rw [hmapeq, count_map_fst]
    have hfbnodup : (fallbackPairs L C P).Nodup := by
      rw [fallbackPairs]; exact List.nodup_dedup _
    have hAnodup : ((fallbackPairs L C P).filter (fun r => decide (r.1 = p))).Nodup :=
      hfbnodup.filter _
    have hBnodup : (((C.filter (fun c =>
        P.any (fun q => decide (q.ptid = p) && intersects c.geom q.geom))).map
          (fun c => c.catID)).dedup).Nodup := List.nodup_dedup _
    have hinj : Function.Injective (fun cid : Int => ((p, cid) : Int × Int)) :=
      fun a b h => by simpa using h
    have himage : ((fallbackPairs L C P).filter (fun r => decide (r.1 = p))).toFinset =
        ((((C.filter (fun c =>
            P.any (fun q => decide (q.ptid = p) && intersects c.geom q.geom))).map
              (fun c => c.catID)).dedup).toFinset).image (fun cid => (p, cid)) := by
      ext x
      simp only [List.mem_toFinset, Finset.mem_image, List.mem_filter,
        decide_eq_true_eq, List.mem_dedup, List.mem_map, List.any_eq_true,
        Bool.and_eq_true]
      constructor
      · rintro ⟨hx, hfstx⟩
        rcases (mem_fallbackPairs L C P x).1 hx with ⟨c, hc, q, hq, hint, rfl⟩
        refine ⟨c.catID, ⟨c, ⟨hc, ⟨q, ((mem_unassocPoints L P q).1 hq).1, hfstx, hint⟩⟩, rfl⟩, ?_⟩
        exact Prod.ext_iff.2 ⟨hfstx.symm, rfl⟩
      · rintro ⟨cid, ⟨c, ⟨hc, ⟨q, hqP, hqp, hint⟩⟩, rfl⟩, rfl⟩
        refine ⟨(mem_fallbackPairs L C P _).2
          ⟨c, hc, q, (mem_unassocPoints L P q).2 ⟨hqP, by rw [hqp]; exact hp⟩, hint, ?_⟩, rfl⟩
        exact Prod.ext_iff.2 ⟨hqp.symm, rfl⟩
    have hlenA := List.toFinset_card_of_nodup hAnodup
    have hlenB := List.toFinset_card_of_nodup hBnodup
    unfold fallbackCount
    rw [← hlenA, himage, Finset.card_image_of_injective _ hinj, hlenB]

/-- Witness for C1 (amended) at a concrete instance with one traced,
key-matched point: exactly one output row. -/
theorem c1_amended_coverage_witness :
    (∀ s ∈ ([] : List (Int × Int)),
      s ∈ catch_full_pairs [⟨1, 5, 0, [(0, 0)]⟩] [⟨5, [(0, 0)]⟩]) ∧
    (getCatchments_hw [⟨1, 5, 0, [(0, 0)]⟩] [⟨5, [(0, 0)]⟩] [⟨1, [(0, 0)]⟩]
      [] true).area.count 1 = 1 :=
  ⟨fun s hs => absurd hs (List.not_mem_nil s),
    (c1_amended_coverage [⟨1, 5, 0, [(0, 0)]⟩] [⟨5, [(0, 0)]⟩] [⟨1, [(0, 0)]⟩] [] true 1
      (fun s hs => absurd hs (List.not_mem_nil s))).trans (by decide)⟩

/- ------------------------------------------------------------------
Lemmas about the seqID assignment of GetSubCatchments_hw.
------------------------------------------------------------------ -/

theorem seqFold_map_fst (d : List Int) (l : List LineRow) :
    ∀ st : Int → Nat, (seqFold d l st).map Prod.fst = l := by
  induction l with
  | nil => intro st; simp [seqFold]
  | cons x rest ih =>
    intro st
    by_cases h : x.catID ∈ d <;> simp [seqFold, h, ih]

theorem countCat_cons_self (c : Int) (x : LineRow) (rest : List LineRow)
    (h : x.catID = c) : countCat c (x :: rest) = countCat c rest + 1 := by
  simp [countCat, List.filter_cons, h]

theorem countCat_cons_ne (c : Int) (x : LineRow) (rest : List LineRow)
    (h : ¬ x.catID = c) : countCat c (x :: rest) = countCat c rest := by
  simp [countCat, List.filter_cons, h]

theorem seqFold_filter_map (d : List Int) (c : Int) (l : List LineRow) :
    ∀ st : Int → Nat,
      ((seqFold d l st).filter (fun x => decide (x.1.catID = c))).map (fun x => x.2) =
        if c ∈ d then List.range' (st c + 1) (countCat c l)
        else List.replicate (countCat c l) 1 := by
  induction l with
  | nil =>
    intro st
    by_cases hd : c ∈ d <;> simp [seqFold, countCat, hd]
  | cons x rest ih =>
    intro st
    by_cases hx : x.catID ∈ d
    · by_cases hc : x.catID = c
      · have hcd : c ∈ d := hc ▸ hx
        simp only [seqFold]
        rw [if_pos hx, List.filter_cons, if_pos (by simp [hc]), List.map_cons,
          if_pos hcd, countCat_cons_self c x rest hc, List.range'_succ]
        have hst : (if c = x.catID then st x.catID + 1 else st c) = st c + 1 := by
          rw [if_pos hc.symm, hc]
        rw [ih (fun c' => if c' = x.catID then st x.catID + 1 else st c'), if_pos hcd, hst]
        rw [hc]
      · simp only [seqFold]
        rw [if_pos hx, List.filter_cons, if_neg (by simp [hc]),
          ih (fun c' => if c' = x.catID then st x.catID + 1 else st c'),
          countCat_cons_ne c x rest hc]
        have hst : (if c = x.catID then st x.catID + 1 else st c) = st c :=
          if_neg (fun h => hc h.symm)
        by_cases hd : c ∈ d
        · rw [if_pos hd, if_pos hd, hst]
        · rw [if_neg hd, if_neg hd]
    · by_cases hc : x.catID = c
      · have hcd : c ∉ d := fun h => hx (by rw [hc]; exact h)
        simp only [seqFold]
        rw [if_neg hx, List.filter_cons, if_pos (by simp [hc]), List.map_cons,
          if_neg hcd, countCat_cons_self c x rest hc, List.replicate_succ, ih st, if_neg hcd]
      · simp only [seqFold]
        rw [if_neg hx, List.filter_cons, if_neg (by simp [hc]), ih st,
          countCat_cons_ne c x rest hc]

theorem mem_dupnidOf (flow : List LineRow) (c : Int) :
    c ∈ dupnidOf flow ↔ 1 < countCat c flow := by
  unfold dupnidOf nidsOf
  simp only [List.mem_map, List.mem_filter, decide_eq_true_eq, List.mem_dedup]
  constructor
  · rintro ⟨a, ⟨⟨c', hc', rfl⟩, hlt⟩, rfl⟩
    exact hlt
  · intro h
    have hpos : 0 < countCat c flow := Nat.lt_trans Nat.zero_lt_one h
    have hne : flow.filter (fun l => decide (l.catID = c)) ≠ [] := by
      intro hnil
      rw [countCat, hnil] at hpos
      exact absurd hpos (by simp)
    obtain ⟨y, hy⟩ := List.exists_mem_of_ne_nil _ hne
    have hy' := List.mem_filter.1 hy
    refine ⟨(c, countCat c flow), ⟨⟨c, ?_, rfl⟩, h⟩, rfl⟩
    exact ⟨y, hy'.1, by simpa using hy'.2⟩

theorem length_filter_snd_le_one (s : Nat) (X : List (LineRow × Nat))
    (h : (X.map (fun x => x.2)).Nodup) :
    (X.filter (fun x => decide (x.2 = s))).length ≤ 1 := by
  induction X with
  | nil => simp
  | cons x rest ih =>
    rw [List.map_cons, List.nodup_cons] at h
    by_cases hxs : x.2 = s
    · rw [List.filter_cons, if_pos (by simp [hxs])]
      have hnil : rest.filter (fun y => decide (y.2 = s)) = [] := by
        rw [List.filter_eq_nil_iff]
        intro a ha hdec
        have : a.2 = s := by simpa using hdec
        exact h.1 (List.mem_map.2 ⟨a, ha, by rw [this, hxs]⟩)
      rw [hnil]
      simp
    · rw [List.filter_cons, if_neg (by simp [hxs])]
      exact ih h.2

/- ------------------------------------------------------------------
Claim C5: the seqID invariant.
------------------------------------------------------------------ -/

/-- C5: the seqID assignment over the starting edges preserves the rows;
every assigned seqID is at least 1; the seqIDs assigned within the group
of starting edges sharing one catchment key are exactly 1..k for the
group size k (so a singleton group receives seqID 1); and hence, for any
further restriction (such as the per-tile selection), a single sequence
index never carries two pour points of the same catchment. -/
theorem c5_seqid_invariant (L : List LineRow) (c : Int) (s : Nat)
    (Q : LineRow × Nat → Bool) :
    ((assignSeq (flowSelect L)).map Prod.fst = flowSelect L) ∧
    ((assignSeq (flowSelect L)).all (fun x => decide (1 ≤ x.2)) = true) ∧
    (((assignSeq (flowSelect L)).filter
        (fun x => decide (x.1.catID = c))).map (fun x => x.2) =
      List.range' 1 (countCat c (flowSelect L))) ∧
    (((assignSeq (flowSelect L)).filter
        (fun x => Q x && decide (x.2 = s) && decide (x.1.catID = c))).length ≤ 1) := by
  set flow := flowSelect L with hflow
  have hgrp : ∀ c' : Int,
      ((assignSeq flow).filter (fun x => decide (x.1.catID = c'))).map (fun x => x.2) =
        List.range' 1 (countCat c' flow) := by
    intro c'
    have h := seqFold_filter_map (dupnidOf flow) c' flow (fun _ => 0)
    rw [assignSeq]
    by_cases hd : c' ∈ dupnidOf flow
    · rw [h, if_pos hd]
    · rw [h, if_neg hd]
      have hle : countCat c' flow ≤ 1 := by
        by_contra hgt
        exact hd ((mem_dupnidOf flow c').2 (Nat.lt_of_not_le hgt))
      rcases Nat.le_one_iff_eq_zero_or_eq_one.1 hle with h0 | h1
      · rw [h0]; rfl
      · rw [h1]; rfl
  refine ⟨seqFold_map_fst _ _ _, ?_, hgrp c, ?_⟩
  · rw [List.all_eq_true]
    intro x hx
    have hmem : x.2 ∈ ((assignSeq flow).filter
        (fun y => decide (y.1.catID = x.1.catID))).map (fun y => y.2) :=
      List.mem_map.2 ⟨x, List.mem_filter.2 ⟨hx, by simp⟩, rfl⟩
    rw [hgrp x.1.catID] at hmem
    rcases List.mem_range'.1 hmem with ⟨i, -, hi⟩
    simp [hi]
  · have hsplit : (assignSeq flow).filter
        (fun x => Q x && decide (x.2 = s) && decide (x.1.catID = c)) =
        (((assignSeq flow).filter (fun x => decide (x.1.catID = c))).filter
          (fun x => decide (x.2 = s))).filter Q := by
      rw [List.filter_filter, List.filter_filter]
    rw [hsplit]
    calc ((((assignSeq flow).filter (fun x => decide (x.1.catID = c))).filter
            (fun x => decide (x.2 = s))).filter Q).length
        ≤ (((assignSeq flow).filter (fun x => decide (x.1.catID = c))).filter
            (fun x => decide (x.2 = s))).length := List.length_filter_le _ _
      _ ≤ 1 := by
          refine length_filter_snd_le_one s _ ?_
          rw [hgrp c]
          exact List.nodup_range' _ _

/- ------------------------------------------------------------------
Structure of the GetSubCatchments_hw output.
------------------------------------------------------------------ -/

theorem mem_getSubCatchments_structure (L : List LineRow) (CA : List CatFullRow)
    (watershed : List (LineRow × Nat) → Cell → Option Int) (row : IdentRow)
    (h : row ∈ getSubCatchments_hw L CA watershed) :
    ∃ r ∈ CA,
      (∃ l ∈ L, l.FromCumul_Length = 0 ∧ r.ptid = l.ptid ∧ r.catID = l.catID) ∧
      row.ptid = some r.ptid ∧ row.catID = some r.catID ∧ row.gridcode = r.ptid ∧
      row.geom ⊆ r.geom := by
  simp only [getSubCatchments_hw] at h
  rcases List.mem_flatMap.1 h with ⟨v, -, h2⟩
  rcases List.mem_flatMap.1 h2 with ⟨s, -, h3⟩
  split at h3
  · exact absurd h3 (List.not_mem_nil row)
  · have hsel := (List.mem_filter.1 h3).2
    have h4 := (List.mem_filter.1 h3).1
    rcases List.mem_flatMap.1 h4 with ⟨fr, -, h5⟩
    have h6 := (List.mem_filter.1 h5).1
    rcases List.mem_append.1 h6 with h7 | h7
    · rcases List.mem_map.1 h7 with ⟨r, hr, rfl⟩
      have hgrid : some r.ptid = some fr.1 := by simpa using hsel
      have hgrid' : r.ptid = fr.1 := Option.some.inj hgrid
      have hrCA := List.mem_filter.1 hr
      have hpair : ∃ q ∈ (flowSelect L).map (fun l => (l.ptid, l.catID)),
          r.ptid = q.1 ∧ r.catID = q.2 := by simpa using hrCA.2
      rcases hpair with ⟨q, hq, hq1, hq2⟩
      rcases List.mem_map.1 hq with ⟨l, hlflow, rfl⟩
      have hlL := List.mem_filter.1 hlflow
      refine ⟨r, hrCA.1, ⟨l, hlL.1, by simpa using hlL.2, hq1, hq2⟩, rfl, rfl,
        hgrid'.symm, ?_⟩
      intro a ha
      have := (List.mem_filter.1 ha).2
      simpa using this
    · rw [List.mem_singleton] at h7
      subst h7
      simp at hsel

/- ------------------------------------------------------------------
Claim C6: sub-catchment containment.
------------------------------------------------------------------ -/

/-- C6: every sub-catchment fragment kept by GetSubCatchments_hw (its
gridcode equal to its inherited ptid_join) is fully contained in the
geometry of a coarse catchment row of the catchment area it was
intersected with, namely the row carrying the fragment's own
(ptid_join, catID) attributes; and that row is the coarse catchment of
one of the point's starting edges. -/
theorem c6_subcatchment_containment (L : List LineRow) (CA : List CatFullRow)
    (watershed : List (LineRow × Nat) → Cell → Option Int) (row : IdentRow)
    (h : row ∈ getSubCatchments_hw L CA watershed) :
    ∃ r ∈ CA, row.geom ⊆ r.geom ∧ row.ptid = some r.ptid ∧ row.catID = some r.catID ∧
      row.gridcode = r.ptid ∧
      ∃ l ∈ L, l.FromCumul_Length = 0 ∧ l.ptid = r.ptid ∧ l.catID = r.catID := by
  rcases mem_getSubCatchments_structure L CA watershed row h with
    ⟨r, hr, ⟨l, hl, hcum, hrp, hrc⟩, hptid, hcat, hgrid, hgeom⟩
  exact ⟨r, hr, hgeom, hptid, hcat, hgrid, l, hl, hcum, hrp.symm, hrc.symm⟩

/-- Witness for C6 at a concrete instance: one starting line in one
coarse catchment; the watershed fragment is kept and contained. -/
theorem c6_subcatchment_containment_witness :
    ((⟨1, some 1, some 10, [(0, 0), (0, 1)]⟩ : IdentRow) ∈
      getSubCatchments_hw [⟨1, 10, 0, [(0, 0)]⟩] [⟨1, 10, "0208", [(0, 0), (0, 1)]⟩]
        (fun _ _ => some 1)) ∧
    (∃ r ∈ [(⟨1, 10, "0208", [(0, 0), (0, 1)]⟩ : CatFullRow)],
      (⟨1, some 1, some 10, [(0, 0), (0, 1)]⟩ : IdentRow).geom ⊆ r.geom ∧
      (⟨1, some 1, some 10, [(0, 0), (0, 1)]⟩ : IdentRow).ptid = some r.ptid ∧
      (⟨1, some 1, some 10, [(0, 0), (0, 1)]⟩ : IdentRow).catID = some r.catID ∧
      (⟨1, some 1, some 10, [(0, 0), (0, 1)]⟩ : IdentRow).gridcode = r.ptid ∧
      ∃ l ∈ [(⟨1, 10, 0, [(0, 0)]⟩ : LineRow)],
        l.FromCumul_Length = 0 ∧ l.ptid = r.ptid ∧ l.catID = r.catID) :=
  ⟨by decide,
    c6_subcatchment_containment [⟨1, 10, 0, [(0, 0)]⟩]
      [⟨1, 10, "0208", [(0, 0), (0, 1)]⟩] (fun _ _ => some 1)
      ⟨1, some 1, some 10, [(0, 0), (0, 1)]⟩ (by decide)⟩

/- ------------------------------------------------------------------
Claim C4: pour-point selection and the no-starting-edge case.
------------------------------------------------------------------ -/

/-- C4: the pour points of the sub-catchment refinement are exactly the
traced edges with FromCumul_Length = 0; when the traced lines carry at
most one zero-length edge per point (the service-area solve emits one
origin edge per facility), the selection has at most one pour point per
point; and a point that has traced edges but no zero-length edge
receives no sub-catchment row, so the substitution step leaves its
coarse catchment rows unchanged. -/
theorem c4_pour_points (L : List LineRow) (C : List CatRow) (CA : List CatFullRow)
    (watershed : List (LineRow × Nat) → Cell → Option Int) (p : Int) :
    (∀ l : LineRow, l ∈ flowSelect L ↔ (l ∈ L ∧ l.FromCumul_Length = 0)) ∧
    ((∀ q : Int, (L.filter (fun l =>
        decide (l.ptid = q) && decide (l.FromCumul_Length = 0))).length ≤ 1) →
      ((flowSelect L).filter (fun l => decide (l.ptid = p))).length ≤ 1) ∧
    ((¬ ∃ l ∈ L, l.ptid = p ∧ l.FromCumul_Length = 0) →
      (substFull (catch_full_pairs L C)
          (pairsOfSub (getSubCatchments_hw L CA watershed))).filter
            (fun r => decide (r.1 = p)) =
        (catch_full_pairs L C).filter (fun r => decide (r.1 = p))) := by
  refine ⟨?_, ?_, ?_⟩
  · intro l
    simp [flowSelect, List.mem_filter]
  · intro hone
    rw [flowSelect, List.filter_filter]
    exact hone p
  · intro hno
    refine substFull_filter_fst _ _ p ?_
    intro hmem
    rcases List.mem_map.1 hmem with ⟨pr, hpr, hfst⟩
    rcases List.mem_filterMap.1 hpr with ⟨row, hrow, hmap⟩
    rcases mem_getSubCatchments_structure L CA watershed row hrow with
      ⟨r, -, ⟨l, hl, hcum, hrp, -⟩, hptid, hcat, -, -⟩
    rw [hptid, hcat] at hmap
    have hpr' : (r.ptid, r.catID) = pr := by
      simpa using hmap
    apply hno
    refine ⟨l, hl, ?_, hcum⟩
    rw [← hrp, ← hfst, ← hpr']

/-- Witness for C4: a single-origin trace keeps at most one pour point,
and a point whose only edge has nonzero accumulated length keeps its
coarse catchment rows through the substitution. -/
theorem c4_pour_points_witness :
    (((flowSelect [⟨1, 10, 0, [(0, 0)]⟩]).filter
        (fun l => decide (l.ptid = 1))).length ≤ 1) ∧
    ((substFull (catch_full_pairs [⟨1, 10, 0, [(0, 0)]⟩, ⟨2, 11, 5, [(1, 1)]⟩]
          [⟨10, [(0, 0)]⟩, ⟨11, [(1, 1)]⟩])
        (pairsOfSub (getSubCatchments_hw [⟨1, 10, 0, [(0, 0)]⟩, ⟨2, 11, 5, [(1, 1)]⟩]
          [⟨1, 10, "0208", [(0, 0)]⟩] (fun _ _ => some 1)))).filter
          (fun r => decide (r.1 = 2)) =
      (catch_full_pairs [⟨1, 10, 0, [(0, 0)]⟩, ⟨2, 11, 5, [(1, 1)]⟩]
          [⟨10, [(0, 0)]⟩, ⟨11, [(1, 1)]⟩]).filter (fun r => decide (r.1 = 2))) :=
  ⟨(c4_pour_points [⟨1, 10, 0, [(0, 0)]⟩] [] [] (fun _ _ => none) 1).2.1
      (fun q => List.length_filter_le _ _),
    (c4_pour_points [⟨1, 10, 0, [(0, 0)]⟩, ⟨2, 11, 5, [(1, 1)]⟩]
      [⟨10, [(0, 0)]⟩, ⟨11, [(1, 1)]⟩] [⟨1, 10, "0208", [(0, 0)]⟩]
      (fun _ _ => some 1) 2).2.2 (by decide)⟩

/-- Witness for C8: a dataset that already carries the derived id field
is returned unchanged. -/
theorem c8_assignId_idempotent_witness :
    assignId ⟨"OBJECTID", ["OBJECTID_in_Points"], []⟩ =
      ⟨"OBJECTID", ["OBJECTID_in_Points"], []⟩ :=
  (c8_assignId_idempotent ⟨"OBJECTID", ["OBJECTID_in_Points"], []⟩).2.2.2 (by decide)
